import Mathlib

/-!
Shallow embedding of the detection engine of the criprof repository
(src/engine.go, src/detector.go, src/container.go, src/criprof.go) and
proofs of the specification's claims about it.

Modelling conventions:
* Go `float64` confidence scores are modelled as rationals (`ℚ`); the
  engine only compares them with `>`.
* Go `time.Time` / `time.Duration` are modelled as integers; `time.Since t`
  at instant `now` is `now - t`.
* A Go `context.Context` is modelled by the function `doneAt` giving, for
  each loop step, whether the `<-ctx.Done()` check fires and with which
  cause (`ctx.Err()`).
* A detector's `Detect` outcome for the run under consideration is recorded
  in the `detect` field; the theorems quantify over all outcomes.
* `sort.Slice` is not a deterministic function of its input (the Go
  standard library documents it as an unstable sort), so `NewEngine` is
  embedded as the relation `NewEngineSpec`: any output list that is a
  permutation of the input sorted by the comparator is admissible.
-/

namespace Criprof

/-- The DetectionType enumeration from src/detector.go. -/
inductive DetectionType where
  | runtime
  | scheduler
  | imageFormat
deriving DecidableEq

/-- The Detection struct from src/detector.go. -/
structure Detection where
  type : DetectionType
  value : String
  confidence : ℚ
  source : String
deriving DecidableEq

/-- Go error values the engine distinguishes: `context.Canceled`,
`context.DeadlineExceeded`, and any other error. -/
inductive GoError where
  | canceled
  | deadlineExceeded
  | other (msg : String)
deriving DecidableEq

/-- The cause reported by `ctx.Err()` once a context's done channel fires. -/
inductive CancelCause where
  | canceled
  | deadlineExceeded
deriving DecidableEq

/-- The error value `ctx.Err()` yields for a fired context. -/
def CancelCause.toGoError : CancelCause → GoError
  | CancelCause.canceled => GoError.canceled
  | CancelCause.deadlineExceeded => GoError.deadlineExceeded

/-- Outcome of one `Detector.Detect` call: `(detection, err)` with the Go
convention that a nil detection and nil error means "found nothing". -/
inductive DetectResult where
  | ok (d : Option Detection)
  | err (e : GoError)
deriving DecidableEq

/-- A detector as the engine sees it (src/detector.go interface): a name, a
priority, and the outcome its Detect call produces during the run. -/
structure Detector where
  name : String
  priority : Int
  detect : DetectResult
deriving DecidableEq

/-- A context: for each loop step, whether the `<-ctx.Done()` check fires,
and with which cause. -/
structure Ctx where
  doneAt : Nat → Option CancelCause

/-- The empty `results` map of src/engine.go line 66. -/
def emptyResults : DetectionType → Option Detection := fun _ => none

/-- Lines 94-98 of src/engine.go: keep the detection with the highest
confidence for each type (`existing == nil || detection.Confidence >
existing.Confidence`). -/
def updateResults (results : DetectionType → Option Detection) (det : Detection) :
    DetectionType → Option Detection :=
  fun t =>
    if t = det.type then
      match results det.type with
      | none => some det
      | some existing =>
          if existing.confidence < det.confidence then some det else some existing
    else results t

/-- The loop of src/engine.go lines 71-99.  Returns the final results map
(or the propagated cancellation error) together with the list of detectors
whose Detect method was invoked, in invocation order. -/
def runDetectors (ctx : Ctx) :
    List Detector → Nat → (DetectionType → Option Detection) →
      Except GoError (DetectionType → Option Detection) × List Detector
  | [], _, results => (Except.ok results, [])
  | d :: ds, step, results =>
    match ctx.doneAt step with
    | some c => (Except.error c.toGoError, [])
    | none =>
      match d.detect with
      | DetectResult.err e =>
          if e = GoError.canceled ∨ e = GoError.deadlineExceeded then
            (Except.error e, [d])
          else
            let rest := runDetectors ctx ds (step + 1) results
            (rest.1, d :: rest.2)
      | DetectResult.ok none =>
          let rest := runDetectors ctx ds (step + 1) results
          (rest.1, d :: rest.2)
      | DetectResult.ok (some det) =>
          let rest := runDetectors ctx ds (step + 1) (updateResults results det)
          (rest.1, d :: rest.2)

/-- The Inventory struct from src/criprof.go. -/
structure Inventory where
  hostname : String
  id : String
  imageFormat : String
  pid : Int
  runtime : String
  scheduler : String
deriving DecidableEq

/-- Possible failures of `os.Stat`: the file does not exist, or another
error such as a permission failure.  A successful Stat is `none`. -/
inductive StatError where
  | notExist
  | permission
deriving DecidableEq

/-- `os.IsExist` reports whether an error says a file already exists
(`fs.ErrExist`).  `os.IsExist(nil)` is false, and the errors `os.Stat` can
produce (not-exist, permission) never satisfy it either. -/
def osIsExist : Option StatError → Bool
  | none => false
  | some StatError.notExist => false
  | some StatError.permission => false

/-- The filesystem environment read by src/container.go.  The two regular
expression searches (`FindStringIndex`) are abstracted as oracles supplied
by the environment, since the guard `os.IsExist(err)` makes the branch
using them unreachable for every oracle. -/
structure FsEnv where
  dockerinitStat : Option StatError
  dockerenvStat : Option StatError
  cgroupStat : Option StatError
  cgroupContent : String
  dockerIDMatch : String → Option (Nat × Nat)
  coreOSIDMatch : String → Option (Nat × Nat)

/-- Go string slicing s[a:b]. -/
def strSlice (s : String) (a b : Nat) : String :=
  String.mk ((s.toList.drop a).take (b - a))

/-- Go string slicing s[a:]. -/
def strFrom (s : String) (a : Nat) : String :=
  String.mk (s.toList.drop a)

/-- getContainerID from src/container.go lines 60-82: guarded by
`os.IsExist(err)` on the result of `os.Stat("/proc/self/cgroup")`. -/
def getContainerID (env : FsEnv) : String :=
  if osIsExist env.cgroupStat then
    match env.dockerIDMatch env.cgroupContent with
    | some loc => strSlice env.cgroupContent (loc.1 + 12) (loc.2 - 2)
    | none =>
      match env.coreOSIDMatch env.cgroupContent with
      | some loc => strFrom env.cgroupContent (loc.1 + 27)
      | none => "undetermined"
  else
    "undetermined"

/-- IsContainer from src/container.go lines 35-49. -/
def IsContainer (env : FsEnv) : Bool :=
  if env.dockerinitStat = none then true
  else if env.dockerenvStat = none then true
  else if getContainerID env ≠ "" then true
  else false

/-- The process environment read by buildInventory: `os.Getpid()`,
`os.Hostname()` (`none` models a hostname resolution failure), and the
filesystem environment used by getContainerID. -/
structure SysEnv where
  pid : Int
  hostname : Option String
  fs : FsEnv

/-- buildInventory from src/engine.go lines 113-144. -/
def buildInventory (env : SysEnv) (results : DetectionType → Option Detection) :
    Inventory :=
  let inv : Inventory :=
    { pid := env.pid, runtime := "undetermined", scheduler := "undetermined",
      imageFormat := "undetermined", id := "undetermined", hostname := "" }
  let inv :=
    match results DetectionType.runtime with
    | some det => { inv with runtime := det.value }
    | none => inv
  let inv :=
    match results DetectionType.scheduler with
    | some det => { inv with scheduler := det.value }
    | none => inv
  let inv :=
    match results DetectionType.imageFormat with
    | some det => { inv with imageFormat := det.value }
    | none => inv
  let inv :=
    match env.hostname with
    | some h => { inv with hostname := h }
    | none => { inv with hostname := "unknown" }
  { inv with id := getContainerID env.fs }

/-- The DetectionCache struct from src/engine.go lines 154-159. -/
structure CacheState where
  inventory : Option Inventory
  timestamp : Int
  ttl : Int
deriving DecidableEq

/-- NewDetectionCache from src/engine.go lines 162-166 (zero-valued
inventory and timestamp). -/
def NewDetectionCache (ttl : Int) : CacheState :=
  { inventory := none, timestamp := 0, ttl := ttl }

/-- DetectionCache.Get from src/engine.go lines 169-183, at instant `now`:
nil inventory gives nothing, `time.Since(timestamp) > ttl` gives nothing,
otherwise the stored inventory. -/
def DetectionCache.Get (c : CacheState) (now : Int) : Option Inventory :=
  match c.inventory with
  | none => none
  | some inv => if c.ttl < now - c.timestamp then none else some inv

/-- DetectionCache.Set from src/engine.go lines 186-192, at instant `now`. -/
def DetectionCache.Set (c : CacheState) (inv : Inventory) (now : Int) : CacheState :=
  { c with inventory := some inv, timestamp := now }

/-- DetectionCache.Invalidate from src/engine.go lines 195-200. -/
def DetectionCache.Invalidate (c : CacheState) : CacheState :=
  { c with inventory := none }

/-- The Engine struct from src/engine.go: the (sorted) detector roster and
the cache, `none` when caching is disabled. -/
structure Engine where
  detectors : List Detector
  cache : Option CacheState
deriving DecidableEq

/-- EngineConfig from src/engine.go lines 22-31. -/
structure EngineConfig where
  detectors : List Detector
  enableCaching : Bool
  cacheTTL : Int
deriving DecidableEq

/-- The guarantee of Go's `sort.Slice` with comparator
`detectors[i].Priority() > detectors[j].Priority()`: the output is a
permutation of the input that is pairwise non-increasing in priority.
`sort.Slice` is documented as NOT stable, so nothing more is guaranteed. -/
def sortSliceByPriority (input output : List Detector) : Prop :=
  List.Perm output input ∧
    List.Pairwise (fun a b => b.priority ≤ a.priority) output

/-- NewEngine from src/engine.go lines 34-49, as a relation between the
configuration and the admissible resulting engines (relational because
`sort.Slice` is unstable). -/
def NewEngineSpec (config : EngineConfig) (e : Engine) : Prop :=
  sortSliceByPriority config.detectors e.detectors ∧
    e.cache =
      (if config.enableCaching then some (NewDetectionCache config.cacheTTL) else none)

/-- The stability property the specification asserts of the roster re-sort:
detectors of every given priority appear in the sorted roster in the same
relative order as in the configured roster. -/
def stableForTies (roster sorted : List Detector) : Prop :=
  ∀ p : Int,
    List.filter (fun d => d.priority = p) sorted =
      List.filter (fun d => d.priority = p) roster

/-- The cache-miss branch of DetectAll (src/engine.go lines 65-109): run
the detectors, build the inventory, store it in the cache when caching is
enabled.  Returns the result, the updated engine, and the list of invoked
detectors. -/
def detectAllCompute (e : Engine) (ctx : Ctx) (env : SysEnv) (now : Int) :
    Except GoError Inventory × Engine × List Detector :=
  match runDetectors ctx e.detectors 0 emptyResults with
  | (Except.error err, executed) => (Except.error err, e, executed)
  | (Except.ok results, executed) =>
      let inv := buildInventory env results
      match e.cache with
      | some c =>
          (Except.ok inv, { e with cache := some (DetectionCache.Set c inv now) }, executed)
      | none => (Except.ok inv, e, executed)

/-- Engine.DetectAll from src/engine.go lines 57-110, at instant `now`:
answer from the cache on a hit, otherwise compute. -/
def DetectAll (e : Engine) (ctx : Ctx) (env : SysEnv) (now : Int) :
    Except GoError Inventory × Engine × List Detector :=
  match e.cache with
  | some c =>
      match DetectionCache.Get c now with
      | some cached => (Except.ok cached, e, [])
      | none => detectAllCompute e ctx env now
  | none => detectAllCompute e ctx env now

/-- Engine.InvalidateCache from src/engine.go lines 147-151. -/
def Engine.InvalidateCache (e : Engine) : Engine :=
  match e.cache with
  | some c => { e with cache := some (DetectionCache.Invalidate c) }
  | none => e

/-- The engine state has no valid cache entry at instant `now` (caching
disabled, empty cache, or expired entry). -/
def cacheMiss (e : Engine) (now : Int) : Prop :=
  ∀ c, e.cache = some c → DetectionCache.Get c now = none

/-- A detect outcome that aborts the run: a cancellation-class error. -/
def isCancelResult : DetectResult → Prop
  | DetectResult.ok _ => False
  | DetectResult.err e => e = GoError.canceled ∨ e = GoError.deadlineExceeded

/-! Concrete sample values used by witnesses and counterexamples. -/

/-- A context that never fires. -/
def ctxNever : Ctx := { doneAt := fun _ => none }

/-- A context that is already cancelled at every check. -/
def ctxCancelled : Ctx := { doneAt := fun _ => some CancelCause.canceled }

/-- A bare-metal filesystem environment: no Docker markers, `/proc/self/cgroup`
present (Stat succeeds), empty cgroup content, regexes match nothing. -/
def fsEnv0 : FsEnv :=
  { dockerinitStat := some StatError.notExist, dockerenvStat := some StatError.notExist,
    cgroupStat := none, cgroupContent := "",
    dockerIDMatch := fun _ => none, coreOSIDMatch := fun _ => none }

/-- A process environment with pid 1 and a resolvable hostname. -/
def env0 : SysEnv := { pid := 1, hostname := some "host", fs := fsEnv0 }

/-- A process environment whose hostname resolution fails. -/
def envNoHost : SysEnv := { pid := 1, hostname := none, fs := fsEnv0 }

/-- A runtime detection with confidence 1. -/
def detHi : Detection :=
  { type := DetectionType.runtime, value := "docker", confidence := 1, source := "hi" }

/-- A runtime detection with confidence 0 (same as `exLo`). -/
def detTie : Detection :=
  { type := DetectionType.runtime, value := "crio", confidence := 0, source := "tie" }

/-- A runtime detection with confidence 0, used as the earlier best. -/
def exLo : Detection :=
  { type := DetectionType.runtime, value := "podman", confidence := 0, source := "lo" }

/-- A results map whose runtime entry is `exLo`. -/
def resultsLo : DetectionType → Option Detection :=
  fun t =>
    match t with
    | DetectionType.runtime => some exLo
    | DetectionType.scheduler => none
    | DetectionType.imageFormat => none

/-- A detector of priority 5 that finds nothing. -/
def dA : Detector := { name := "a", priority := 5, detect := DetectResult.ok none }

/-- Another detector of priority 5 that finds nothing. -/
def dB : Detector := { name := "b", priority := 5, detect := DetectResult.ok none }

/-- A detector whose Detect call returns `context.Canceled`. -/
def dCancel : Detector :=
  { name := "cancel", priority := 9, detect := DetectResult.err GoError.canceled }

/-- A detector whose Detect call fails with an ordinary (non-cancellation)
error. -/
def dFlaky : Detector :=
  { name := "flaky", priority := 7, detect := DetectResult.err (GoError.other "io") }

/-- A detector that detects `detHi`. -/
def dDocker : Detector :=
  { name := "docker-file", priority := 8, detect := DetectResult.ok (some detHi) }

/-! Helper lemmas. -/

theorem osIsExist_false (o : Option StatError) : osIsExist o = false := by
  cases o with
  | none => rfl
  | some s => cases s <;> rfl

theorem getContainerID_undetermined (env : FsEnv) :
    getContainerID env = "undetermined" := by
  unfold getContainerID
  rw [osIsExist_false]
  simp

theorem get_eq_some_iff (c : CacheState) (now : Int) (r : Inventory) :
    DetectionCache.Get c now = some r ↔
      c.inventory = some r ∧ now - c.timestamp ≤ c.ttl := by
  unfold DetectionCache.Get
  cases hcv : c.inventory with
  | none => simp
  | some v =>
      by_cases hlt : c.ttl < now - c.timestamp
      · simp only [if_pos hlt]
        constructor
        · intro h2; exact absurd h2 (by simp)
        · rintro ⟨h1, h2⟩; omega
      · simp only [if_neg hlt]
        constructor
        · intro h2
          refine ⟨h2, ?_⟩
          omega
        · rintro ⟨h1, h2⟩
          exact h1

theorem get_eq_none_of_invalid (c : CacheState) (now : Int)
    (h : c.inventory = none ∨ c.ttl < now - c.timestamp) :
    DetectionCache.Get c now = none := by
  unfold DetectionCache.Get
  cases hcv : c.inventory with
  | none => rfl
  | some v =>
      rcases h with hnone | hexp
      · rw [hcv] at hnone; exact absurd hnone (by simp)
      · simp [hexp]

/-! Claim theorems. -/

/-- C2: for two detections of the same category meeting in the
reconciliation step of DetectAll (src/engine.go lines 94-98) — the current
best `ex` and a newly produced `det` — the one with strictly greater
confidence is kept, and on an exact confidence tie the earlier-executed one
(`ex`) remains the winner. -/
theorem C2_confidence_reconciliation (results : DetectionType → Option Detection)
    (det ex : Detection) (h : results det.type = some ex) :
    (ex.confidence < det.confidence →
        updateResults results det det.type = some det) ∧
    (ex.confidence = det.confidence →
        updateResults results det det.type = some ex) ∧
    (det.confidence < ex.confidence →
        updateResults results det det.type = some ex) := by
  refine ⟨?_, ?_, ?_⟩ <;> intro hc
  · simp [updateResults, h, hc]
  · simp [updateResults, h, hc]
  · simp [updateResults, h, not_lt_of_gt hc]

/-- Witness for C2 at concrete inputs: a higher-confidence detection
replaces the best, an equal-confidence detection loses to the earlier
best. -/
theorem C2_witness :
    updateResults resultsLo detHi DetectionType.runtime = some detHi ∧
    updateResults resultsLo detTie DetectionType.runtime = some exLo :=
  ⟨(C2_confidence_reconciliation resultsLo detHi exLo rfl).1 (by norm_num [exLo, detHi]),
   (C2_confidence_reconciliation resultsLo detTie exLo rfl).2.1 rfl⟩

/-- C6: a cache read returns the stored record exactly when an entry is
present and `now - computed_at <= ttl` holds; it returns nothing when the
cache is empty or the entry has expired (expiry evaluated at the read
itself, which does not mutate the cache); a write replaces any existing
entry unconditionally and resets the expiry clock to the write instant. -/
theorem C6_cache_read_write (c : CacheState) (inv r : Inventory) (now t2 : Int) :
    (DetectionCache.Get c now = some r ↔
      c.inventory = some r ∧ now - c.timestamp ≤ c.ttl) ∧
    ((c.inventory = none ∨ c.ttl < now - c.timestamp) →
      DetectionCache.Get c now = none) ∧
    DetectionCache.Set c inv t2 =
      { inventory := some inv, timestamp := t2, ttl := c.ttl } :=
  ⟨get_eq_some_iff c now r, get_eq_none_of_invalid c now, rfl⟩

/-- An inventory value used by cache witnesses. -/
def invW : Inventory :=
  { hostname := "host", id := "undetermined", imageFormat := "undetermined",
    pid := 1, runtime := "undetermined", scheduler := "undetermined" }

/-- A cache entry written at instant 0 with TTL 3. -/
def cW : CacheState := { inventory := some invW, timestamp := 0, ttl := 3 }

/-- Witness for C6: the entry of `cW` is expired at instant 5, and a write
at instant 7 replaces it and resets the clock. -/
theorem C6_witness :
    DetectionCache.Get cW 5 = none ∧
    DetectionCache.Set cW invW 7 =
      { inventory := some invW, timestamp := 7, ttl := cW.ttl } :=
  ⟨(C6_cache_read_write cW invW invW 5 7).2.1 (Or.inr (by decide)),
   (C6_cache_read_write cW invW invW 5 7).2.2⟩

/-- C10: in src/container.go, getContainerID always returns the non-empty
sentinel "undetermined" — its `os.IsExist` guard on the Stat error is never
true, so the cgroup-parsing branch is unreachable — and therefore
IsContainer's final check against the empty string always succeeds:
IsContainer returns true in every environment. -/
theorem C10_isContainer_always_true (env : FsEnv) :
    getContainerID env = "undetermined" ∧
    getContainerID env ≠ "" ∧
    IsContainer env = true := by
  refine ⟨getContainerID_undetermined env, ?_, ?_⟩
  · rw [getContainerID_undetermined env]
    decide
  · unfold IsContainer
    rw [getContainerID_undetermined env]
    split_ifs with h1 h2 h3
    · rfl
    · rfl
    · rfl
    · exact absurd (by decide) h3

theorem runDetectors_trace_take (ctx : Ctx) :
    ∀ (ds : List Detector) (step : Nat) (res : DetectionType → Option Detection),
      ∃ k, (runDetectors ctx ds step res).2 = ds.take k := by
  intro ds
  induction ds with
  | nil => intro step res; exact ⟨0, rfl⟩
  | cons d tl ih =>
    intro step res
    cases hdone : ctx.doneAt step with
    | some c => exact ⟨0, by simp [runDetectors, hdone]⟩
    | none =>
      cases hd : d.detect with
      | ok od =>
        cases od with
        | none =>
          obtain ⟨k, hk⟩ := ih (step + 1) res
          exact ⟨k + 1, by simp [runDetectors, hdone, hd, hk, List.take_succ_cons]⟩
        | some det =>
          obtain ⟨k, hk⟩ := ih (step + 1) (updateResults res det)
          exact ⟨k + 1, by simp [runDetectors, hdone, hd, hk, List.take_succ_cons]⟩
      | err e2 =>
        by_cases hc : e2 = GoError.canceled ∨ e2 = GoError.deadlineExceeded
        · exact ⟨1, by simp [runDetectors, hdone, hd, hc]⟩
        · obtain ⟨k, hk⟩ := ih (step + 1) res
          exact ⟨k + 1, by simp [runDetectors, hdone, hd, hc, hk, List.take_succ_cons]⟩

theorem detectAllCompute_trace (e : Engine) (ctx : Ctx) (env : SysEnv) (now : Int) :
    (detectAllCompute e ctx env now).2.2 =
      (runDetectors ctx e.detectors 0 emptyResults).2 := by
  unfold detectAllCompute
  cases hr : runDetectors ctx e.detectors 0 emptyResults with
  | mk r tr =>
    cases r with
    | error err => simp
    | ok results => cases hc : e.cache <;> simp

theorem DetectAll_shape (e : Engine) (ctx : Ctx) (env : SysEnv) (now : Int) :
    (∃ c cached, e.cache = some c ∧ DetectionCache.Get c now = some cached ∧
        DetectAll e ctx env now = (Except.ok cached, e, [])) ∨
      DetectAll e ctx env now = detectAllCompute e ctx env now := by
  unfold DetectAll
  split
  next c heq =>
    split
    next cached hg => exact Or.inl ⟨c, cached, heq, hg, rfl⟩
    next hg => exact Or.inr rfl
  next heq => exact Or.inr rfl

theorem DetectAll_trace_shape (e : Engine) (ctx : Ctx) (env : SysEnv) (now : Int) :
    (DetectAll e ctx env now).2.2 = [] ∨
      (DetectAll e ctx env now).2.2 =
        (runDetectors ctx e.detectors 0 emptyResults).2 := by
  rcases DetectAll_shape e ctx env now with ⟨c, cached, hc, hg, heq⟩ | hco
  · rw [heq]
    exact Or.inl rfl
  · rw [hco]
    exact Or.inr (detectAllCompute_trace e ctx env now)

theorem DetectAll_of_cacheMiss (e : Engine) (ctx : Ctx) (env : SysEnv) (now : Int)
    (h : cacheMiss e now) :
    DetectAll e ctx env now = detectAllCompute e ctx env now := by
  rcases DetectAll_shape e ctx env now with ⟨c, cached, hc, hg, heq⟩ | hco
  · rw [h c hc] at hg
    exact Option.noConfusion hg
  · exact hco

theorem detectAllCompute_error (e : Engine) (ctx : Ctx) (env : SysEnv) (now : Int)
    (err : GoError) (tr : List Detector)
    (h : runDetectors ctx e.detectors 0 emptyResults = (Except.error err, tr)) :
    detectAllCompute e ctx env now = (Except.error err, e, tr) := by
  unfold detectAllCompute
  rw [h]

theorem runDetectors_error_is_cancel (ctx : Ctx) :
    ∀ (ds : List Detector) (step : Nat) (res : DetectionType → Option Detection)
      (err : GoError) (tr : List Detector),
      runDetectors ctx ds step res = (Except.error err, tr) →
      err = GoError.canceled ∨ err = GoError.deadlineExceeded := by
  intro ds
  induction ds with
  | nil =>
    intro step res err tr h
    simp [runDetectors] at h
  | cons d tl ih =>
    intro step res err tr h
    cases hdone : ctx.doneAt step with
    | some c =>
      have hstep : runDetectors ctx (d :: tl) step res = (Except.error c.toGoError, []) := by
        simp [runDetectors, hdone]
      rw [hstep] at h
      simp only [Prod.mk.injEq, Except.error.injEq] at h
      cases c with
      | canceled => exact Or.inl h.1.symm
      | deadlineExceeded => exact Or.inr h.1.symm
    | none =>
      cases hd : d.detect with
      | ok od =>
        cases od with
        | none =>
          have hstep : runDetectors ctx (d :: tl) step res =
              ((runDetectors ctx tl (step + 1) res).1,
                d :: (runDetectors ctx tl (step + 1) res).2) := by
            simp [runDetectors, hdone, hd]
          rw [hstep] at h
          cases hr : runDetectors ctx tl (step + 1) res with
          | mk r tr2 =>
            rw [hr] at h
            simp only [Prod.mk.injEq] at h
            exact ih (step + 1) res err tr2 (by rw [hr, h.1])
        | some det =>
          have hstep : runDetectors ctx (d :: tl) step res =
              ((runDetectors ctx tl (step + 1) (updateResults res det)).1,
                d :: (runDetectors ctx tl (step + 1) (updateResults res det)).2) := by
            simp [runDetectors, hdone, hd]
          rw [hstep] at h
          cases hr : runDetectors ctx tl (step + 1) (updateResults res det) with
          | mk r tr2 =>
            rw [hr] at h
            simp only [Prod.mk.injEq] at h
            exact ih (step + 1) (updateResults res det) err tr2 (by rw [hr, h.1])
      | err e2 =>
        by_cases hc : e2 = GoError.canceled ∨ e2 = GoError.deadlineExceeded
        · have hstep : runDetectors ctx (d :: tl) step res = (Except.error e2, [d]) := by
            simp [runDetectors, hdone, hd, hc]
          rw [hstep] at h
          simp only [Prod.mk.injEq, Except.error.injEq] at h
          exact h.1 ▸ hc
        · have hstep : runDetectors ctx (d :: tl) step res =
              ((runDetectors ctx tl (step + 1) res).1,
                d :: (runDetectors ctx tl (step + 1) res).2) := by
            simp [runDetectors, hdone, hd, hc]
          rw [hstep] at h
          cases hr : runDetectors ctx tl (step + 1) res with
          | mk r tr2 =>
            rw [hr] at h
            simp only [Prod.mk.injEq] at h
            exact ih (step + 1) res err tr2 (by rw [hr, h.1])

theorem detectAllCompute_fst_error (e : Engine) (ctx : Ctx) (env : SysEnv) (now : Int)
    (err : GoError) (h : (detectAllCompute e ctx env now).1 = Except.error err) :
    err = GoError.canceled ∨ err = GoError.deadlineExceeded := by
  unfold detectAllCompute at h
  cases hr : runDetectors ctx e.detectors 0 emptyResults with
  | mk r tr =>
    rw [hr] at h
    cases r with
    | error e2 =>
      simp only [Except.error.injEq] at h
      exact h ▸ runDetectors_error_is_cancel ctx e.detectors 0 emptyResults e2 tr hr
    | ok results =>
      cases hc : e.cache with
      | some c => rw [hc] at h; simp at h
      | none => rw [hc] at h; simp at h

theorem runDetectors_cancel (ctx : Ctx) :
    ∀ (ds : List Detector) (step : Nat) (res : DetectionType → Option Detection)
      (i : Nat) (hi : i < ds.length),
      (∀ j (hj : j < i),
          ctx.doneAt (step + j) = none ∧
            ¬ isCancelResult (ds.get ⟨j, Nat.lt_trans hj hi⟩).detect) →
      ((∀ c, ctx.doneAt (step + i) = some c →
          runDetectors ctx ds step res = (Except.error c.toGoError, ds.take i)) ∧
        (∀ err, ctx.doneAt (step + i) = none →
          (ds.get ⟨i, hi⟩).detect = DetectResult.err err →
          (err = GoError.canceled ∨ err = GoError.deadlineExceeded) →
          runDetectors ctx ds step res = (Except.error err, ds.take (i + 1)))) := by
  intro ds
  induction ds with
  | nil => intro step res i hi; exact absurd hi (Nat.not_lt_zero i)
  | cons d tl ih =>
    intro step res i hi hbefore
    cases i with
    | zero =>
      constructor
      · intro c hdone
        rw [Nat.add_zero] at hdone
        simp [runDetectors, hdone]
      · intro err hdone hdet hcan
        rw [Nat.add_zero] at hdone
        have hd : d.detect = DetectResult.err err := hdet
        simp [runDetectors, hdone, hd, hcan]
    | succ i2 =>
      have hhead := hbefore 0 (Nat.succ_pos i2)
      have hdone0 : ctx.doneAt step = none := by
        have := hhead.1
        rwa [Nat.add_zero] at this
      have hnc : ¬ isCancelResult d.detect := hhead.2
      have hi2 : i2 < tl.length := Nat.lt_of_succ_lt_succ hi
      have hb2 : ∀ j (hj : j < i2),
          ctx.doneAt (step + 1 + j) = none ∧
            ¬ isCancelResult (tl.get ⟨j, Nat.lt_trans hj hi2⟩).detect := by
        intro j hj
        have h3 := hbefore (j + 1) (Nat.succ_lt_succ hj)
        constructor
        · have hs : step + (j + 1) = step + 1 + j := by omega
          rw [← hs]
          exact h3.1
        · exact h3.2
      have hs : step + (i2 + 1) = step + 1 + i2 := by omega
      cases hd : d.detect with
      | ok od =>
        cases od with
        | none =>
          have IH := ih (step + 1) res i2 hi2 hb2
          constructor
          · intro c hdone
            rw [hs] at hdone
            have hrec := IH.1 c hdone
            simp [runDetectors, hdone0, hd, hrec, List.take_succ_cons]
          · intro err hdone hdet hcan
            rw [hs] at hdone
            have hdet2 : (tl.get ⟨i2, hi2⟩).detect = DetectResult.err err := hdet
            have hrec := IH.2 err hdone hdet2 hcan
            simp [runDetectors, hdone0, hd, hrec, List.take_succ_cons]
        | some det =>
          have IH := ih (step + 1) (updateResults res det) i2 hi2 hb2
          constructor
          · intro c hdone
            rw [hs] at hdone
            have hrec := IH.1 c hdone
            simp [runDetectors, hdone0, hd, hrec, List.take_succ_cons]
          · intro err hdone hdet hcan
            rw [hs] at hdone
            have hdet2 : (tl.get ⟨i2, hi2⟩).detect = DetectResult.err err := hdet
            have hrec := IH.2 err hdone hdet2 hcan
            simp [runDetectors, hdone0, hd, hrec, List.take_succ_cons]
      | err e2 =>
        have hcond : ¬ (e2 = GoError.canceled ∨ e2 = GoError.deadlineExceeded) := by
          rw [hd] at hnc
          exact hnc
        have IH := ih (step + 1) res i2 hi2 hb2
        constructor
        · intro c hdone
          rw [hs] at hdone
          have hrec := IH.1 c hdone
          simp [runDetectors, hdone0, hd, hcond, hrec, List.take_succ_cons]
        · intro err hdone hdet hcan
          rw [hs] at hdone
          have hdet2 : (tl.get ⟨i2, hi2⟩).detect = DetectResult.err err := hdet
          have hrec := IH.2 err hdone hdet2 hcan
          simp [runDetectors, hdone0, hd, hcond, hrec, List.take_succ_cons]

/-- C1 counterexample: the roster [dA, dB] (equal priority 5, dA first) can
legitimately be re-sorted by `sort.Slice` into [dB, dA]; such an engine
executes dB before dA in DetectAll, so the re-sort is not stable with
respect to insertion order for equal priorities. -/
theorem C1_counterexample :
    NewEngineSpec { detectors := [dA, dB], enableCaching := false, cacheTTL := 0 }
        { detectors := [dB, dA], cache := none } ∧
    (DetectAll { detectors := [dB, dA], cache := none } ctxNever env0 0).2.2 = [dB, dA] ∧
    dA.priority = dB.priority ∧
    ¬ stableForTies [dA, dB] [dB, dA] := by
  refine ⟨⟨⟨by decide, by decide⟩, rfl⟩, rfl, rfl, ?_⟩
  intro hstable
  exact absurd (hstable 5) (by decide)

/-- C1 (amended): for every roster, every engine NewEngine can produce runs
the detectors in non-increasing priority order in DetectAll; the relative
order of detectors with equal priority is NOT specified, because
`sort.Slice` is not a stable sort. -/
theorem C1_priority_order (config : EngineConfig) (e : Engine)
    (hE : NewEngineSpec config e) (ctx : Ctx) (env : SysEnv) (now : Int) :
    List.Pairwise (fun a b => b.priority ≤ a.priority) (DetectAll e ctx env now).2.2 := by
  have hP : List.Pairwise (fun a b => b.priority ≤ a.priority) e.detectors := hE.1.2
  rcases DetectAll_trace_shape e ctx env now with h0 | hrun
  · rw [h0]
    exact List.Pairwise.nil
  · rw [hrun]
    obtain ⟨k, hk⟩ := runDetectors_trace_take ctx e.detectors 0 emptyResults
    rw [hk]
    exact hP.sublist (List.take_sublist k e.detectors)

/-- Witness for the amended C1 at a concrete engine built from [dA, dB]. -/
theorem C1_witness :
    List.Pairwise (fun a b => b.priority ≤ a.priority)
      (DetectAll { detectors := [dB, dA], cache := none } ctxNever env0 0).2.2 :=
  C1_priority_order { detectors := [dA, dB], enableCaching := false, cacheTTL := 0 }
    { detectors := [dB, dA], cache := none } ⟨⟨by decide, by decide⟩, rfl⟩ ctxNever env0 0

/-- C3: in a cache-miss DetectAll run in which no earlier step triggered
cancellation, if the context is cancelled before detector i starts, the
call returns that cancellation error, the detectors from i on are never
started, the engine (and its cache) is left unchanged, and no record is
returned; likewise when detector i itself returns a cancellation-class
error, in which case detectors after i are never started. -/
theorem C3_cancellation_aborts (e : Engine) (ctx : Ctx) (env : SysEnv) (now : Int)
    (i : Nat) (hmiss : cacheMiss e now) (hi : i < e.detectors.length)
    (hbefore : ∀ j (hj : j < i),
        ctx.doneAt j = none ∧
          ¬ isCancelResult ((e.detectors).get ⟨j, Nat.lt_trans hj hi⟩).detect) :
    (∀ c, ctx.doneAt i = some c →
        DetectAll e ctx env now =
          (Except.error c.toGoError, e, e.detectors.take i)) ∧
    (∀ err, ctx.doneAt i = none →
        ((e.detectors).get ⟨i, hi⟩).detect = DetectResult.err err →
        (err = GoError.canceled ∨ err = GoError.deadlineExceeded) →
        DetectAll e ctx env now =
          (Except.error err, e, e.detectors.take (i + 1))) := by
  have hb0 : ∀ j (hj : j < i),
      ctx.doneAt (0 + j) = none ∧
        ¬ isCancelResult ((e.detectors).get ⟨j, Nat.lt_trans hj hi⟩).detect := by
    intro j hj
    rw [Nat.zero_add]
    exact hbefore j hj
  have core := runDetectors_cancel ctx e.detectors 0 emptyResults i hi hb0
  constructor
  · intro c hdone
    rw [DetectAll_of_cacheMiss e ctx env now hmiss]
    exact detectAllCompute_error e ctx env now _ _
      (core.1 c (by rw [Nat.zero_add]; exact hdone))
  · intro err hdone hdet hcan
    rw [DetectAll_of_cacheMiss e ctx env now hmiss]
    exact detectAllCompute_error e ctx env now _ _
      (core.2 err (by rw [Nat.zero_add]; exact hdone) hdet hcan)

/-- An engine whose first detector returns `context.Canceled`. -/
def eCancel : Engine := { detectors := [dCancel, dA], cache := none }

/-- Witness for C3: with the first detector returning `context.Canceled`,
DetectAll aborts after it with that error and dA is never started; with an
already-cancelled context, DetectAll aborts before any detector starts. -/
theorem C3_witness :
    DetectAll eCancel ctxNever env0 0 =
      (Except.error GoError.canceled, eCancel, [dCancel]) ∧
    DetectAll eCancel ctxCancelled env0 0 =
      (Except.error GoError.canceled, eCancel, []) := by
  constructor
  · exact (C3_cancellation_aborts eCancel ctxNever env0 0 0
      (fun _ hc => Option.noConfusion hc) (by decide)
      (fun j hj => absurd hj (Nat.not_lt_zero j))).2
      GoError.canceled rfl rfl (Or.inl rfl)
  · exact (C3_cancellation_aborts eCancel ctxCancelled env0 0 0
      (fun _ hc => Option.noConfusion hc) (by decide)
      (fun j hj => absurd hj (Nat.not_lt_zero j))).1
      CancelCause.canceled rfl

/-- C4: DetectAll surfaces an error only if it is context cancellation or
deadline exceeded; a detector failing with any other error is absorbed and
the loop continues with the next detector (the results map is left
untouched by the failing detector). -/
theorem C4_only_cancellation_errors (e : Engine) (ctx : Ctx) (env : SysEnv) (now : Int) :
    (∀ err, (DetectAll e ctx env now).1 = Except.error err →
        err = GoError.canceled ∨ err = GoError.deadlineExceeded) ∧
    (∀ (msg : String) (d : Detector) (ds : List Detector) (step : Nat)
        (res : DetectionType → Option Detection),
        ctx.doneAt step = none →
        d.detect = DetectResult.err (GoError.other msg) →
        runDetectors ctx (d :: ds) step res =
          ((runDetectors ctx ds (step + 1) res).1,
            d :: (runDetectors ctx ds (step + 1) res).2)) := by
  constructor
  · intro err herr
    rcases DetectAll_shape e ctx env now with ⟨c, cached, hc, hg, heq⟩ | hco
    · rw [heq] at herr
      simp at herr
    · rw [hco] at herr
      exact detectAllCompute_fst_error e ctx env now err herr
  · intro msg d ds step res hdone hd
    simp [runDetectors, hdone, hd]

/-- Witness for C4: the error of a run aborted by `context.Canceled` is
cancellation-class, and a detector failing with an ordinary error is
skipped while the loop continues. -/
theorem C4_witness :
    (GoError.canceled = GoError.canceled ∨
      GoError.canceled = GoError.deadlineExceeded) ∧
    runDetectors ctxNever [dFlaky, dDocker] 0 emptyResults =
      ((runDetectors ctxNever [dDocker] 1 emptyResults).1,
        dFlaky :: (runDetectors ctxNever [dDocker] 1 emptyResults).2) :=
  ⟨(C4_only_cancellation_errors eCancel ctxNever env0 0).1 GoError.canceled rfl,
   (C4_only_cancellation_errors eCancel ctxNever env0 0).2 "io" dFlaky [dDocker] 0
      emptyResults rfl rfl⟩

theorem DetectAll_hit (e : Engine) (ctx : Ctx) (env : SysEnv) (now : Int)
    (c : CacheState) (inv : Inventory)
    (hc : e.cache = some c) (hg : DetectionCache.Get c now = some inv) :
    DetectAll e ctx env now = (Except.ok inv, e, []) := by
  unfold DetectAll
  split
  next c2 heq =>
    rw [hc] at heq
    obtain rfl : c = c2 := Option.some.inj heq
    split
    next cached hg2 =>
      rw [hg] at hg2
      obtain rfl : inv = cached := Option.some.inj hg2
      rfl
    next hg2 =>
      rw [hg] at hg2
      exact Option.noConfusion hg2
  next heq =>
    rw [hc] at heq
    exact Option.noConfusion heq

theorem detectAllCompute_ok_cached (e : Engine) (ctx : Ctx) (env : SysEnv) (now : Int)
    (results : DetectionType → Option Detection) (tr : List Detector) (c : CacheState)
    (hc : e.cache = some c)
    (h : runDetectors ctx e.detectors 0 emptyResults = (Except.ok results, tr)) :
    detectAllCompute e ctx env now =
      (Except.ok (buildInventory env results),
        { e with cache := some (DetectionCache.Set c (buildInventory env results) now) },
        tr) := by
  unfold detectAllCompute
  cases hr0 : runDetectors ctx e.detectors 0 emptyResults with
  | mk r tr2 =>
    rw [hr0] at h
    simp only [Prod.mk.injEq] at h
    obtain ⟨hr1, hr2⟩ := h
    subst hr1
    subst hr2
    simp [hc]

theorem detectAllCompute_fst_ok (e : Engine) (ctx : Ctx) (env : SysEnv) (now : Int)
    (results : DetectionType → Option Detection) (tr : List Detector)
    (h : runDetectors ctx e.detectors 0 emptyResults = (Except.ok results, tr)) :
    (detectAllCompute e ctx env now).1 = Except.ok (buildInventory env results) := by
  unfold detectAllCompute
  rw [h]
  cases hc : e.cache <;> simp

/-- C5: with caching enabled, after a DetectAll call at `t0` that returned
a record, a second DetectAll call at `t1` whose distance from the cached
entry's write instant is within the TTL returns the identical record,
leaves the engine unchanged, and executes zero detectors. -/
theorem C5_cache_idempotence (e e1 : Engine) (ctx : Ctx) (env : SysEnv)
    (t0 t1 : Int) (inv : Inventory) (tr : List Detector) (c0 c1 : CacheState)
    (hcache0 : e.cache = some c0)
    (h1 : DetectAll e ctx env t0 = (Except.ok inv, e1, tr))
    (hcache1 : e1.cache = some c1)
    (httl : t1 - c1.timestamp ≤ c1.ttl) :
    DetectAll e1 ctx env t1 = (Except.ok inv, e1, []) := by
  have hinv : c1.inventory = some inv := by
    rcases DetectAll_shape e ctx env t0 with ⟨c, cached, hc, hg, heq⟩ | hco
    · rw [heq] at h1
      simp only [Prod.mk.injEq, Except.ok.injEq] at h1
      obtain ⟨hcach, he1, htr⟩ := h1
      rw [← he1] at hcache1
      rw [hc] at hcache1
      obtain rfl : c = c1 := Option.some.inj hcache1
      have hv := ((get_eq_some_iff c t0 cached).1 hg).1
      rw [hcach] at hv
      exact hv
    · rw [hco] at h1
      cases hr : runDetectors ctx e.detectors 0 emptyResults with
      | mk r tr2 =>
        cases r with
        | error err =>
          rw [detectAllCompute_error e ctx env t0 err tr2 hr] at h1
          simp at h1
        | ok results =>
          rw [detectAllCompute_ok_cached e ctx env t0 results tr2 c0 hcache0 hr] at h1
          simp only [Prod.mk.injEq, Except.ok.injEq] at h1
          obtain ⟨hio, he1, htr⟩ := h1
          rw [← he1] at hcache1
          obtain rfl : DetectionCache.Set c0 (buildInventory env results) t0 = c1 :=
            Option.some.inj hcache1
          exact congrArg some hio
  exact DetectAll_hit e1 ctx env t1 c1 inv hcache1
    ((get_eq_some_iff c1 t1 inv).2 ⟨hinv, httl⟩)

/-- The record computed by the roster [dDocker] in the environment env0. -/
def inv5 : Inventory :=
  { hostname := "host", id := "undetermined", imageFormat := "undetermined",
    pid := 1, runtime := "docker", scheduler := "undetermined" }

/-- An engine with roster [dDocker] and an empty cache with TTL 10. -/
def e5 : Engine := { detectors := [dDocker], cache := some (NewDetectionCache 10) }

/-- The engine e5 after its first DetectAll call at instant 0. -/
def e5b : Engine :=
  { detectors := [dDocker],
    cache := some { inventory := some inv5, timestamp := 0, ttl := 10 } }

/-- Witness for C5: after a first call at instant 0, the call at instant 5
(within the TTL of 10) returns the identical record with zero detectors
executed. -/
theorem C5_witness :
    DetectAll e5b ctxNever env0 5 = (Except.ok inv5, e5b, []) :=
  C5_cache_idempotence e5 e5b ctxNever env0 0 5 inv5 [dDocker]
    (NewDetectionCache 10) { inventory := some inv5, timestamp := 0, ttl := 10 }
    rfl rfl rfl (by decide)

/-- C7: for an engine with caching enabled, InvalidateCache clears the
cached entry unconditionally (regardless of its remaining TTL), and a
subsequent DetectAll takes the full computation path — it re-executes the
detectors instead of answering from the cache. -/
theorem C7_invalidate_then_recompute (e : Engine) (c : CacheState) (ctx : Ctx)
    (env : SysEnv) (now : Int) (hc : e.cache = some c) :
    (Engine.InvalidateCache e).cache = some (DetectionCache.Invalidate c) ∧
    (DetectionCache.Invalidate c).inventory = none ∧
    DetectAll (Engine.InvalidateCache e) ctx env now =
      detectAllCompute (Engine.InvalidateCache e) ctx env now := by
  have hcc : (Engine.InvalidateCache e).cache = some (DetectionCache.Invalidate c) := by
    unfold Engine.InvalidateCache
    split
    next c2 heq =>
      rw [hc] at heq
      obtain rfl : c = c2 := Option.some.inj heq
      rfl
    next heq =>
      rw [hc] at heq
      exact Option.noConfusion heq
  refine ⟨hcc, rfl, ?_⟩
  apply DetectAll_of_cacheMiss
  intro c2 h2
  rw [hcc] at h2
  obtain rfl : DetectionCache.Invalidate c = c2 := Option.some.inj h2
  rfl

/-- Witness for C7 on the engine e5b, whose cache entry (TTL 10, written at
instant 0) is still valid at instant 0. -/
theorem C7_witness :
    (Engine.InvalidateCache e5b).cache =
      some (DetectionCache.Invalidate
        { inventory := some inv5, timestamp := 0, ttl := 10 }) ∧
    (DetectionCache.Invalidate
        { inventory := some inv5, timestamp := 0, ttl := 10 }).inventory = none ∧
    DetectAll (Engine.InvalidateCache e5b) ctxNever env0 0 =
      detectAllCompute (Engine.InvalidateCache e5b) ctxNever env0 0 :=
  C7_invalidate_then_recompute e5b
    { inventory := some inv5, timestamp := 0, ttl := 10 } ctxNever env0 0 rfl

/-- C8: on a cache miss with an empty detector roster, DetectAll returns a
record whose runtime, scheduler and image-format fields are the literal
string "undetermined", whose pid is the process id of the environment, and
whose hostname is the resolved hostname, or the sentinel "unknown" when
hostname resolution fails — which does not fail the run; and generally any
category without a detection is "undetermined" in the built record. -/
theorem C8_empty_roster (e : Engine) (ctx : Ctx) (env : SysEnv) (now : Int)
    (hdet : e.detectors = []) (hmiss : cacheMiss e now) :
    ((DetectAll e ctx env now).1 = Except.ok (buildInventory env emptyResults) ∧
      (buildInventory env emptyResults).runtime = "undetermined" ∧
      (buildInventory env emptyResults).scheduler = "undetermined" ∧
      (buildInventory env emptyResults).imageFormat = "undetermined" ∧
      (buildInventory env emptyResults).pid = env.pid ∧
      (∀ h2, env.hostname = some h2 →
        (buildInventory env emptyResults).hostname = h2) ∧
      (env.hostname = none → (buildInventory env emptyResults).hostname = "unknown")) ∧
    (∀ results : DetectionType → Option Detection,
      (results DetectionType.runtime = none →
        (buildInventory env results).runtime = "undetermined") ∧
      (results DetectionType.scheduler = none →
        (buildInventory env results).scheduler = "undetermined") ∧
      (results DetectionType.imageFormat = none →
        (buildInventory env results).imageFormat = "undetermined")) := by
  constructor
  · refine ⟨?_, ?_, ?_, ?_, ?_, ?_, ?_⟩
    · rw [DetectAll_of_cacheMiss e ctx env now hmiss]
      exact detectAllCompute_fst_ok e ctx env now emptyResults []
        (by rw [hdet]; rfl)
    · cases hh : env.hostname <;> simp [buildInventory, emptyResults, hh]
    · cases hh : env.hostname <;> simp [buildInventory, emptyResults, hh]
    · cases hh : env.hostname <;> simp [buildInventory, emptyResults, hh]
    · cases hh : env.hostname <;> simp [buildInventory, emptyResults, hh]
    · intro h2 hh
      simp [buildInventory, emptyResults, hh]
    · intro hh
      simp [buildInventory, emptyResults, hh]
  · intro results
    refine ⟨?_, ?_, ?_⟩ <;> intro hres
    · cases h2 : results DetectionType.scheduler <;>
        cases h3 : results DetectionType.imageFormat <;>
          cases hh : env.hostname <;>
            simp [buildInventory, hres, h2, h3, hh]
    · cases h2 : results DetectionType.runtime <;>
        cases h3 : results DetectionType.imageFormat <;>
          cases hh : env.hostname <;>
            simp [buildInventory, hres, h2, h3, hh]
    · cases h2 : results DetectionType.runtime <;>
        cases h3 : results DetectionType.scheduler <;>
          cases hh : env.hostname <;>
            simp [buildInventory, hres, h2, h3, hh]

/-- An engine with an empty roster and caching disabled. -/
def e8 : Engine := { detectors := [], cache := none }

/-- Witness for C8 on the empty roster, once with a resolvable hostname and
once with hostname resolution failing. -/
theorem C8_witness :
    (DetectAll e8 ctxNever env0 0).1 = Except.ok (buildInventory env0 emptyResults) ∧
    (buildInventory env0 emptyResults).runtime = "undetermined" ∧
    (buildInventory env0 emptyResults).pid = 1 ∧
    (buildInventory env0 emptyResults).hostname = "host" ∧
    (buildInventory envNoHost emptyResults).hostname = "unknown" :=
  ⟨(C8_empty_roster e8 ctxNever env0 0 rfl (fun _ hc => Option.noConfusion hc)).1.1,
   (C8_empty_roster e8 ctxNever env0 0 rfl (fun _ hc => Option.noConfusion hc)).1.2.1,
   (C8_empty_roster e8 ctxNever env0 0 rfl
      (fun _ hc => Option.noConfusion hc)).1.2.2.2.2.1,
   (C8_empty_roster e8 ctxNever env0 0 rfl
      (fun _ hc => Option.noConfusion hc)).1.2.2.2.2.2.1 "host" rfl,
   (C8_empty_roster e8 ctxNever envNoHost 0 rfl
      (fun _ hc => Option.noConfusion hc)).1.2.2.2.2.2.2 rfl⟩

end Criprof
